import Mathlib

/-!
Verification development for the `deno-compile-extra` compatibility shims:
a file-backed localStorage polyfill (`src/local-storage-polyfill/mod.ts`),
a file-backed Cache API polyfill (`src/caches-polyfill/mod.ts`) and the
directory/standalone helpers (`src/utils.ts`).

The TypeScript sources are shallowly embedded below.  JavaScript strings are
modelled as `String` (payloads here are ASCII), byte buffers as `List Nat`
with every element `< 256`, plain JavaScript objects used as string maps as
association lists `List (String × α)` in insertion order together with the
`Object.prototype` lookup/assignment semantics, and the filesystem state of
one backing file as an explicit inductive (`absent` / `corrupt` / parsed
document).  Fallible operations return `Except String _`; a thrown
JavaScript error is the `.error` case carrying the message built by the
source.  The SHA-256 digest primitive (`crypto.subtle.digest`) is a platform
service and is passed as an explicit function parameter.
-/

namespace DenoCompileExtra

/-! ## Association-list helpers

A plain JavaScript object used as a map: own enumerable string-keyed data
properties in insertion order.  `assocGet` is property lookup restricted to
own properties, `assocSet` is `obj[k] = v` for a key that does not hit an
accessor on the prototype chain (update in place, else append), and
`assocRemove` is `delete obj[k]`. -/

def assocGet {α : Type} : List (String × α) → String → Option α
  | [], _ => none
  | (k', v') :: rest, k => if k' = k then some v' else assocGet rest k

def assocSet {α : Type} : List (String × α) → String → α → List (String × α)
  | [], k, v => [(k, v)]
  | (k', v') :: rest, k, v =>
      if k' = k then (k, v) :: rest else (k', v') :: assocSet rest k v

def assocRemove {α : Type} : List (String × α) → String → List (String × α)
  | [], _ => []
  | (k', v') :: rest, k =>
      if k' = k then rest else (k', v') :: assocRemove rest k

/-! ## Plain-object property semantics (`Object.prototype` chain)

`storageData` in the localStorage polyfill is an object literal, so reads of
absent keys fall through to `Object.prototype`, and `obj["__proto__"] = v`
invokes the inherited `__proto__` accessor: for a non-object value the setter
is a no-op and no own property is created. -/

/-- The enumerable-by-lookup members inherited from `Object.prototype`. -/
def objectPrototypeKeys : List String :=
  ["constructor", "hasOwnProperty", "isPrototypeOf", "propertyIsEnumerable",
   "toLocaleString", "toString", "valueOf", "__defineGetter__",
   "__defineSetter__", "__lookupGetter__", "__lookupSetter__", "__proto__"]

/-- Result of evaluating a JavaScript expression such as
`storageData[key] ?? null`: a stored string, a member inherited from
`Object.prototype` (a function, or the prototype object itself for
`__proto__`), or `null`. -/
inductive JSValue where
  | str (s : String)
  | protoMember (name : String)
  | jsNull
  deriving DecidableEq, Repr

/-- Evaluation of `obj[k] ?? null` on a prototype-bearing plain object: own property first,
then the `Object.prototype` member, else (`undefined ?? null` =) `null`. -/
def jsIndexRead (own : List (String × String)) (k : String) : JSValue :=
  match assocGet own k with
  | some v => .str v
  | none => if k ∈ objectPrototypeKeys then .protoMember k else .jsNull

/-- Assignment `obj[k] = v` for a string `v`: ordinary `[[Set]]`.  The only accessor on
`Object.prototype` that intercepts the assignment is `__proto__`, whose
setter ignores non-object values, so no own property is created for it. -/
def jsIndexWrite (own : List (String × String)) (k v : String) :
    List (String × String) :=
  if k = "__proto__" then own else assocSet own k v

/-- A canonical array-index property key (`"0"`, `"17"`, ...): these are
enumerated first, in ascending numeric order, by `Object.keys`. -/
def isArrayIndexKey (s : String) : Bool :=
  match s.toNat? with
  | some n => toString n == s && n < 4294967295
  | none => false

def keyNum (s : String) : Nat := (s.toNat?).getD 0

def insertByIdx (x : String) : List String → List String
  | [] => [x]
  | y :: ys => if keyNum x ≤ keyNum y then x :: y :: ys else y :: insertByIdx x ys

def sortByIdx : List String → List String
  | [] => []
  | x :: xs => insertByIdx x (sortByIdx xs)

/-- Enumeration `Object.keys obj`: array-index keys in ascending numeric order first,
then the remaining string keys in insertion order. -/
def jsOwnKeys (own : List (String × String)) : List String :=
  let ks := own.map Prod.fst
  sortByIdx (ks.filter isArrayIndexKey) ++ ks.filter (fun k => !isArrayIndexKey k)

/-- Serialization `JSON.stringify` of the object: its own enumerable properties serialized
in `Object.keys` order; `JSON.parse` of that text rebuilds exactly these
pairs as own properties in the same order. -/
def serializeData (own : List (String × String)) : List (String × String) :=
  (jsOwnKeys own).filterMap (fun k => (assocGet own k).map (fun v => (k, v)))

/-! ## The backing file of one store -/

/-- On-disk state of the single JSON file backing a store: missing, present
but not valid JSON (the raw text), or present and parsed to a JSON object
mapping string keys to string values. -/
inductive FileState where
  | absent
  | corrupt (raw : String)
  | doc (entries : List (String × String))
  deriving DecidableEq, Repr

/-! ## LocalStorage (`src/local-storage-polyfill/mod.ts`) -/

structure LocalStorageState where
  storageData : List (String × String)
  file : FileState
  deriving DecidableEq, Repr

structure SetupOutcome where
  state : LocalStorageState
  warned : Bool
  deriving DecidableEq, Repr

namespace LocalStorage

/-- The try/catch block of `LocalStorage.setup` (mod.ts lines 44-56), given
the state of the backing file at `this.storagePath`:
read and `JSON.parse` the file; on success keep the parsed document and do
not write.  On any error, `console.warn` unless it is `Deno.errors.NotFound`,
set `storageData` to the empty object, and write the empty document
(`"{}"`, serialized) over the file. -/
def setupLoad : FileState → SetupOutcome
  | .absent => ⟨⟨[], .doc []⟩, false⟩
  | .corrupt _ => ⟨⟨[], .doc []⟩, true⟩
  | .doc d => ⟨⟨d, .doc d⟩, false⟩

/-- Effect of `Deno.writeTextFileSync(this.storagePath, JSON.stringify(this.storageData))`. -/
def saveData (own : List (String × String)) : FileState :=
  .doc (serializeData own)

/-- Model of `getItem(key)` = `this.storageData[key] ?? null`. -/
def getItem (st : LocalStorageState) (k : String) : JSValue :=
  jsIndexRead st.storageData k

/-- Model of `setItem(key, value)`: assign, then `saveData()`. -/
def setItem (st : LocalStorageState) (k v : String) : LocalStorageState :=
  let own := jsIndexWrite st.storageData k v
  ⟨own, saveData own⟩

/-- Model of `removeItem(key)`: `delete this.storageData[key]`, then `saveData()`. -/
def removeItem (st : LocalStorageState) (k : String) : LocalStorageState :=
  let own := assocRemove st.storageData k
  ⟨own, saveData own⟩

/-- Model of `clear()`: `this.storageData` becomes the empty object, then `saveData()`. -/
def clear (_st : LocalStorageState) : LocalStorageState :=
  ⟨[], saveData []⟩

/-- Model of `key(index)` = `Object.keys(this.storageData)[index] ?? null`. -/
def keyAt (st : LocalStorageState) (i : Nat) : JSValue :=
  match (jsOwnKeys st.storageData)[i]? with
  | some k => .str k
  | none => .jsNull

/-- The `length` getter = `Object.keys(this.storageData).length`. -/
def length (st : LocalStorageState) : Nat :=
  (jsOwnKeys st.storageData).length

end LocalStorage

/-- The in-memory state a fresh instance starts from (`storageData = {}`)
once `setup` has initialized an absent file. -/
def emptyLocalStorage : LocalStorageState := ⟨[], .doc []⟩

/-! ## Directory resolver (`src/utils.ts`, `cacheDir`) -/

/-- Values of `Deno.build.os` relevant to `cacheDir`'s switch; every other
value falls through the switch. -/
inductive OS where
  | linux
  | darwin
  | windows
  | other (name : String)
  deriving DecidableEq, Repr

/-- JavaScript truthiness of `Deno.env.get(name)`: `undefined` and the empty
string are falsy. -/
def truthy : Option String → Bool
  | none => false
  | some s => s ≠ ""

/-- Model of `cacheDir()` from `src/utils.ts`: a pure function of the OS family and
the environment (it performs no I/O and creates no directory).
Linux: `XDG_CACHE_HOME` if truthy, else `HOME` + "/.cache".
Darwin: `HOME` + "/Library/Caches" (it never consults `XDG_CACHE_HOME`).
Windows: `LOCALAPPDATA` if truthy, else `APPDATA`.
Anything else, or no applicable variable set: `null`. -/
def cacheDir (os : OS) (env : String → Option String) : Option String :=
  match os with
  | .linux =>
      let xdg := env "XDG_CACHE_HOME"
      if truthy xdg then xdg
      else
        let home := env "HOME"
        if truthy home then some (home.getD "" ++ "/.cache") else none
  | .darwin =>
      let home := env "HOME"
      if truthy home then some (home.getD "" ++ "/Library/Caches") else none
  | .windows =>
      let localAppData := env "LOCALAPPDATA"
      if truthy localAppData then localAppData
      else
        let appData := env "APPDATA"
        if truthy appData then appData else none
  | .other _ => none

/-- A set-and-nonempty environment value. -/
def nonEmptyVar (v : Option String) : Option String :=
  match v with
  | some s => if s = "" then none else some s
  | none => none

/-- Follows the spec's words for the resolver contract (spec section 4.1 and
claim C5): on every Unix-like OS prefer the explicit cache-home variable
(`XDG_CACHE_HOME`) and otherwise derive `<home>/.cache` (Linux-style) or
`<home>/Library/Caches` (Apple-style) from `HOME`; on Windows prefer
`LOCALAPPDATA`, then `APPDATA`; otherwise no result. -/
def cacheDirSpec (os : OS) (env : String → Option String) : Option String :=
  match os with
  | .linux =>
      (nonEmptyVar (env "XDG_CACHE_HOME")).orElse
        (fun _ => (nonEmptyVar (env "HOME")).map (fun h => h ++ "/.cache"))
  | .darwin =>
      (nonEmptyVar (env "XDG_CACHE_HOME")).orElse
        (fun _ => (nonEmptyVar (env "HOME")).map (fun h => h ++ "/Library/Caches"))
  | .windows =>
      (nonEmptyVar (env "LOCALAPPDATA")).orElse
        (fun _ => nonEmptyVar (env "APPDATA"))
  | .other _ => none

/-- The amended resolver contract: as `cacheDirSpec`, except that on Darwin
the explicit cache-home variable is ignored and only `HOME` is consulted. -/
def cacheDirAmended (os : OS) (env : String → Option String) : Option String :=
  match os with
  | .linux =>
      (nonEmptyVar (env "XDG_CACHE_HOME")).orElse
        (fun _ => (nonEmptyVar (env "HOME")).map (fun h => h ++ "/.cache"))
  | .darwin =>
      (nonEmptyVar (env "HOME")).map (fun h => h ++ "/Library/Caches")
  | .windows =>
      (nonEmptyVar (env "LOCALAPPDATA")).orElse
        (fun _ => nonEmptyVar (env "APPDATA"))
  | .other _ => none

/-- Concrete environment: `XDG_CACHE_HOME=/xdg`, `HOME=/home/user`, nothing
else set. -/
def envXdgAndHome : String → Option String := fun n =>
  if n = "XDG_CACHE_HOME" then some "/xdg"
  else if n = "HOME" then some "/home/user"
  else none

/-! ## Namespace hasher (`createStorageId`, identical in both polyfills)

`crypto.subtle.digest("SHA-256", ...)` is a given platform primitive; the
embedding takes the digest as an explicit function from the input bytes to
the 32 digest bytes. -/

/-- Model of `new TextEncoder().encode(s)`: the UTF-8 bytes of `s`. -/
def utf8Encode (s : String) : List Nat :=
  s.toUTF8.toList.map (fun b => b.toNat)

/-- Model of `b.toString(16).padStart(2, "0")` for a byte `b`, as characters:
lowercase hexadecimal digits, left-padded with `'0'` to two characters. -/
def byteToHex (b : Nat) : List Char :=
  let ds := Nat.toDigits 16 b
  if ds.length < 2 then '0' :: ds else ds

/-- Model of `createStorageId(url)` (`LocalStorage.createStorageId` and
`CacheStorageImpl.#createStorageId` are line-for-line identical): encode the
input as UTF-8, digest it, render each digest byte as two lowercase hex
characters, join, and `slice(0, 16)`. -/
def createStorageId (digest : List Nat → List Nat) (url : String) : String :=
  let data := utf8Encode url
  let hashArray := digest data
  String.mk (((hashArray.map byteToHex).flatten).take 16)

/-- Follows the spec's words: render a byte list as lowercase hexadecimal. -/
def hexRender (bytes : List Nat) : List Char :=
  bytes.flatMap (fun b => [Nat.digitChar (b / 16), Nat.digitChar (b % 16)])

def lowercaseHexDigits : List Char := "0123456789abcdef".data

/-! ## Base64 (`arrayBufferToBase64` / `base64ToArrayBuffer`)

`arrayBufferToBase64` turns the buffer into a binary string
(`String.fromCharCode` per byte) and calls `btoa`; the composite is standard
base64 of the byte sequence.  `base64ToArrayBuffer` calls `atob` and reads
the code units back; `atob` throws `InvalidCharacterError` on input that is
not well-formed base64, which the embedding models as `none`. -/

def base64Alphabet : List Char :=
  "ABCDEFGHIJKLMNOPQRSTUVWXYZabcdefghijklmnopqrstuvwxyz0123456789+/".data

def sixBitToChar (n : Nat) : Char :=
  base64Alphabet.getD n '?'

def charToSixBit (c : Char) : Option Nat :=
  base64Alphabet.findIdx? (fun a => a = c)

/-- btoa on the binary string built from the bytes: 3 bytes become 4
alphabet characters; a final 1- or 2-byte group is padded with `'='`. -/
def base64EncodeBytes : List Nat → List Char
  | [] => []
  | [a] =>
      [sixBitToChar (a / 4), sixBitToChar (a % 4 * 16), '=', '=']
  | [a, b] =>
      [sixBitToChar (a / 4), sixBitToChar (a % 4 * 16 + b / 16),
       sixBitToChar (b % 16 * 4), '=']
  | a :: b :: c :: rest =>
      sixBitToChar (a / 4) :: sixBitToChar (a % 4 * 16 + b / 16) ::
      sixBitToChar (b % 16 * 4 + c / 64) :: sixBitToChar (c % 64) ::
      base64EncodeBytes rest

/-- atob on canonical padded base64 text, then `charCodeAt` per position:
groups of four characters decode to three bytes, with `'='` padding allowed
only at the very end. -/
def base64DecodeChars : List Char → Option (List Nat)
  | c1 :: c2 :: c3 :: c4 :: rest =>
      match charToSixBit c1, charToSixBit c2 with
      | some x1, some x2 =>
          if c3 = '=' ∧ c4 = '=' ∧ rest = [] then
            some [x1 * 4 + x2 / 16]
          else
            match charToSixBit c3 with
            | some x3 =>
                if c4 = '=' ∧ rest = [] then
                  some [x1 * 4 + x2 / 16, x2 % 16 * 16 + x3 / 4]
                else
                  match charToSixBit c4 with
                  | some x4 =>
                      (base64DecodeChars rest).map
                        (fun bs => (x1 * 4 + x2 / 16) :: (x2 % 16 * 16 + x3 / 4) ::
                                   (x3 % 4 * 64 + x4) :: bs)
                  | none => none
            | none => none
      | _, _ => none
  | [] => some []
  | _ => none

/-- Model of `arrayBufferToBase64(buffer)`. -/
def arrayBufferToBase64 (bytes : List Nat) : String :=
  String.mk (base64EncodeBytes bytes)

/-- Model of `base64ToArrayBuffer(base64)`; `none` models the `InvalidCharacterError`
`atob` throws on malformed input. -/
def base64ToArrayBuffer (s : String) : Option (List Nat) :=
  base64DecodeChars s.data

/-! ## Cache API polyfill (`src/caches-polyfill/mod.ts`)

A live `Request` is modelled by its URL (already in the canonical absolute
form the `Request` constructor produces), method, and headers (the
`Headers` object's normalized name/value entries).  A live `Response`
likewise, plus its full body bytes. -/

structure RequestMeta where
  url : String
  method : String
  headers : List (String × String)
  deriving DecidableEq, Repr

structure ResponseMeta where
  status : Nat
  statusText : String
  headers : List (String × String)
  body : List Nat
  deriving DecidableEq, Repr

/-- Model of `Response.ok`: status in the inclusive range 200-299. -/
def respOk (r : ResponseMeta) : Bool :=
  200 ≤ r.status && r.status ≤ 299

/-- The `RequestInfo | URL` union taken by the cache operations: a `Request`
object or a URL (string or `URL`, both stringified). -/
inductive RequestInfo where
  | request (r : RequestMeta)
  | url (u : String)
  deriving DecidableEq, Repr

/-- Conversion `input instanceof Request ? input : new Request(input)`: a plain URL
becomes a GET request with no headers for that URL. -/
def toRequest : RequestInfo → RequestMeta
  | .request r => r
  | .url u => ⟨u, "GET", []⟩

/-- Model of `getRequestKey(input)`: `input.url` for a `Request`, else `String(input)`. -/
def getRequestKey : RequestInfo → String
  | .request r => r.url
  | .url u => u

/-- The `request` part of a `StoredCacheEntry`. -/
structure StoredRequest where
  url : String
  method : String
  headers : List (String × String)
  deriving DecidableEq, Repr

/-- The `response` part of a `StoredCacheEntry`; `body` is the base64 text. -/
structure StoredResponse where
  status : Nat
  statusText : String
  headers : List (String × String)
  body : String
  deriving DecidableEq, Repr

structure StoredCacheEntry where
  request : StoredRequest
  response : StoredResponse
  deriving DecidableEq, Repr

/-- Model of `CacheData`: `entries` keyed by request URL. -/
structure CacheData where
  entries : List (String × StoredCacheEntry)
  deriving DecidableEq, Repr

def emptyCacheData : CacheData := ⟨[]⟩

/-- On-disk state of one cache's JSON file.  `doc none` is a file that
parses but has no `entries` field (the load then installs an empty one). -/
inductive CacheFileState where
  | absent
  | corrupt (errText : String)
  | doc (entries : Option (List (String × StoredCacheEntry)))
  deriving DecidableEq, Repr

namespace CacheImpl

/-- Model of `CacheImpl.#load` (mod.ts lines 112-139): if the file exists, read and
`JSON.parse` it, defaulting a missing `entries` field; if it does not exist,
initialize an empty cache in memory.  Any error (in particular a
`JSON.parse` failure on a corrupt file) is rethrown as
`[Cache Polyfill] Error loading cache "<name>":<error>` — there is no warn
| fall-back path. -/
def load (cacheName : String) : CacheFileState → Except String CacheData
  | .absent => .ok { entries := [] }
  | .corrupt errText =>
      .error ("[Cache Polyfill] Error loading cache \"" ++ cacheName ++ "\":"
        ++ errText)
  | .doc none => .ok { entries := [] }
  | .doc (some es) => .ok { entries := es }

/-- Model of `CacheImpl.put(request, response)`: convert the input to a `Request`,
key by its URL, drain the response body into a base64 snapshot, and store
the record (overwriting any record under the same key).  The entry keys are
absolute URLs, so the plain-object assignment never hits a prototype
accessor. -/
def put (d : CacheData) (input : RequestInfo) (response : ResponseMeta) :
    CacheData :=
  let req := toRequest input
  let key := getRequestKey (.request req)
  let entry : StoredCacheEntry :=
    { request := { url := req.url, method := req.method, headers := req.headers },
      response := { status := response.status, statusText := response.statusText,
                    headers := response.headers,
                    body := arrayBufferToBase64 response.body } }
  { entries := assocSet d.entries key entry }

/-- Model of `CacheImpl.match(request)`: exact URL lookup; on a hit, rebuild a
`Response` from the stored status, statusText, headers, and the decoded
body.  The `.error` case is the `InvalidCharacterError` `atob` would throw
on a stored body that is not valid base64. -/
def matchReq (d : CacheData) (input : RequestInfo) :
    Except String (Option ResponseMeta) :=
  let key := getRequestKey input
  match assocGet d.entries key with
  | none => .ok none
  | some entry =>
      match base64ToArrayBuffer entry.response.body with
      | some bytes =>
          .ok (some { status := entry.response.status,
                      statusText := entry.response.statusText,
                      headers := entry.response.headers,
                      body := bytes })
      | none => .error "InvalidCharacterError"

/-- The error thrown by the per-request closure in `addAll` when the fetched
response is not ok:
`Failed to fetch "<url>": <status> <statusText>`. -/
def addAllFailMsg (req : RequestMeta) (response : ResponseMeta) : String :=
  "Failed to fetch \"" ++ req.url ++ "\": " ++ toString response.status
    ++ " " ++ response.statusText

/-- Executor for one run of `requests.map(async ...)` + `Promise.all`,
given the closures in one completion order (the list argument): every
closure runs to completion, so every request is fetched and every ok
response is `put`; a non-ok response throws instead of storing, and the
temporally first rejection — the first non-ok closure in this completion
order — is the one `Promise.all` reports.  Which completion order occurs
is not determined by the program, so theorems below quantify over every
permutation of the request list. -/
def addAllGo (fetchFn : RequestMeta → ResponseMeta) :
    CacheData → Option String → List RequestInfo → CacheData × Option String
  | d, firstErr, [] => (d, firstErr)
  | d, firstErr, input :: rest =>
      let request := toRequest input
      let response := fetchFn request
      if respOk response then
        addAllGo fetchFn (put d (.request request) response) firstErr rest
      else
        addAllGo fetchFn d
          (firstErr.orElse (fun _ => some (addAllFailMsg request response))) rest

/-- Model of `CacheImpl.addAll(requests)` under one completion order of
the concurrent closures; `fetchFn` is the fetch function the bare global
`fetch` call resolves to at run time. -/
def addAll (fetchFn : RequestMeta → ResponseMeta) (d : CacheData)
    (sched : List RequestInfo) : Except String CacheData :=
  match addAllGo fetchFn d none sched with
  | (d', none) => .ok d'
  | (_, some msg) => .error msg

/-- Model of `CacheImpl.add(request)` = `addAll([request])`. -/
def add (fetchFn : RequestMeta → ResponseMeta) (d : CacheData)
    (input : RequestInfo) : Except String CacheData :=
  addAll fetchFn d [input]

/-- The first request (in list order) whose fetched response is not ok. -/
def firstFailedRequest (fetchFn : RequestMeta → ResponseMeta)
    (requests : List RequestInfo) : Option RequestMeta :=
  (requests.map toRequest).find? (fun r => !respOk (fetchFn r))

end CacheImpl

/-! ## The ambient global fetch binding

Line 240 of `caches-polyfill/mod.ts` calls the bare global
`fetch(request.clone())`.  It never captures an original binding, so the
function actually invoked is whatever `globalThis.fetch` holds at call
time: the runtime's native network fetch, or — when a fetch-level patch
such as this repository's own fetch-patch module is installed — the
patch's replacement wrapping it. -/

structure FetchGlobals where
  /-- The runtime's native (unpatched) network fetch. -/
  netFetch : RequestMeta → ResponseMeta
  /-- An installed fetch-level patch replacing `globalThis.fetch`, as a
  transformer of the fetch it wrapped; `none` when no patch is installed. -/
  installedPatch : Option ((RequestMeta → ResponseMeta) → RequestMeta → ResponseMeta)

/-- The current `globalThis.fetch` binding. -/
def currentFetch (g : FetchGlobals) : RequestMeta → ResponseMeta :=
  match g.installedPatch with
  | none => g.netFetch
  | some p => p g.netFetch

/-- Model of `CacheImpl.addAll` as executed in context: the bare `fetch`
call resolves to the current global binding, patched or not. -/
def CacheImpl.addAllAmbient (g : FetchGlobals) (d : CacheData)
    (sched : List RequestInfo) : Except String CacheData :=
  CacheImpl.addAll (currentFetch g) d sched

/-- A native network fetch for which every request fails with 404. -/
def nativeFetch404 : RequestMeta → ResponseMeta :=
  fun _ => ⟨404, "Not Found", [], []⟩

/-- A fetch-level patch in the style of the repository's fetch-patch
module: it serves the request itself (e.g. an embedded `file://` asset)
instead of delegating to the fetch it wrapped. -/
def filePatch : (RequestMeta → ResponseMeta) → RequestMeta → ResponseMeta :=
  fun _base _r => ⟨200, "OK", [], [104, 105]⟩

/-- Globals with the patch installed. -/
def patchedGlobals : FetchGlobals := ⟨nativeFetch404, some filePatch⟩

/-- A fetch answering 404 for one URL and 200 for the rest. -/
def mixedFetch : RequestMeta → ResponseMeta := fun r =>
  if r.url = "https://x/bad" then ⟨404, "Not Found", [], []⟩
  else ⟨200, "OK", [], [104]⟩

/-- Globals with no patch installed. -/
def unpatchedGlobals : FetchGlobals := ⟨mixedFetch, none⟩

/-! ## Setup entry points

The process-wide effects of `setupLocalStorage` and `setupCachesPolyfill`
on one world: which globals are installed, which directories were ensured,
and the state of the key-value store's backing file.  `storageId` stands for
the already-computed `createStorageId(import.meta.url)` value. -/

structure World where
  /-- Result of the `isStandaloneDenoExe()` heuristic guard. -/
  isStandaloneExe : Bool
  /-- Flag `Deno.build.standalone`. -/
  standaloneBuildFlag : Bool
  /-- Marker `globalThis.__cachesPolyfillInitialized`. -/
  cachesInitFlag : Bool
  os : OS
  env : String → Option String
  /-- Whether `globalThis.localStorage` has been replaced by the shim. -/
  localStorageInstalled : Bool
  /-- Whether `globalThis.caches` has been replaced by the polyfill. -/
  cachesInstalled : Bool
  /-- Directories created/ensured on disk, most recent first. -/
  ensuredDirs : List String
  /-- Path `this.storagePath` of the localStorage instance, once set up. -/
  kvPath : String
  /-- The key-value store's backing file. -/
  kvFile : FileState

/-- Model of `setupLocalStorage()` (mod.ts lines 125-152): inert unless the
standalone heuristic holds; otherwise resolve the cache directory
(`assert` throws on null), ensure `<dir>/deno-localStorage`, run the load
step of `LocalStorage.setup` on the backing file, and install the shim on
`globalThis.localStorage`. -/
def setupLocalStorage (storageId : String) (w : World) : Except String World :=
  if !w.isStandaloneExe then .ok w
  else
    match cacheDir w.os w.env with
    | none => .error "AssertionError"
    | some dir =>
        let localStoragePath := dir ++ "/deno-localStorage"
        let outcome := LocalStorage.setupLoad w.kvFile
        .ok { w with
              ensuredDirs := localStoragePath :: w.ensuredDirs,
              kvPath := localStoragePath ++ "/" ++ storageId ++ ".json",
              kvFile := outcome.state.file,
              localStorageInstalled := true }

/-- Model of `setupCachesPolyfill()` (mod.ts lines 418-468): inert unless
`Deno.build.standalone`; inert again if already initialized; otherwise
initialize the `CacheStorageImpl` (resolve the cache directory — the
`assert` failure is wrapped into the initialize error — ensure
`<dir>/deno-cache-api/<storageId>`), install `globalThis.caches`, and set
the initialized marker. -/
def setupCachesPolyfill (storageId : String) (w : World) : Except String World :=
  if !w.standaloneBuildFlag then .ok w
  else if w.cachesInitFlag then .ok w
  else
    match cacheDir w.os w.env with
    | none =>
        .error ("[Cache Polyfill] Failed to initialize CacheStorage. "
          ++ "Polyfill not applied.AssertionError")
    | some dir =>
        let storageRoot := dir ++ "/deno-cache-api/" ++ storageId
        .ok { w with
              ensuredDirs := storageRoot :: w.ensuredDirs,
              cachesInstalled := true,
              cachesInitFlag := true }

/-- A world outside the standalone context: both guards report false. -/
def nonStandaloneWorld : World :=
  { isStandaloneExe := false
    standaloneBuildFlag := false
    cachesInitFlag := false
    os := .linux
    env := fun _ => none
    localStorageInstalled := false
    cachesInstalled := false
    ensuredDirs := []
    kvPath := ""
    kvFile := .absent }

/-! ## General lemmas -/

theorem assocGet_assocSet_self {α : Type} (l : List (String × α)) (k : String) (v : α) :
    assocGet (assocSet l k v) k = some v := by
  induction l with
  | nil => simp [assocSet, assocGet]
  | cons p rest ih =>
      obtain ⟨k', v'⟩ := p
      by_cases h : k' = k
      · simp [assocSet, assocGet, h]
      · simp [assocSet, assocGet, h, ih]

theorem assocGet_assocSet_ne {α : Type} (l : List (String × α)) (k k2 : String) (v : α)
    (hne : k2 ≠ k) : assocGet (assocSet l k v) k2 = assocGet l k2 := by
  have hne' : ¬ k = k2 := fun hh => hne hh.symm
  induction l with
  | nil => simp [assocSet, assocGet, hne']
  | cons p rest ih =>
      obtain ⟨k', v'⟩ := p
      by_cases h : k' = k
      · subst h
        simp [assocSet, assocGet, hne']
      · by_cases h2 : k' = k2
        · subst h2
          simp [assocSet, assocGet, h, hne']
        · simp [assocSet, assocGet, h, h2, ih]

theorem assocGet_eq_none_of_not_mem {α : Type} {l : List (String × α)} {k : String}
    (h : k ∉ l.map Prod.fst) : assocGet l k = none := by
  induction l with
  | nil => rfl
  | cons p rest ih =>
      obtain ⟨k', v'⟩ := p
      simp only [List.map_cons, List.mem_cons] at h
      push_neg at h
      have h1 : ¬ k' = k := fun hh => h.1 hh.symm
      simp [assocGet, h1, ih h.2]

theorem mem_insertByIdx {x y : String} {l : List String} :
    y ∈ insertByIdx x l ↔ y = x ∨ y ∈ l := by
  induction l with
  | nil => simp [insertByIdx]
  | cons z zs ih =>
      by_cases h : keyNum x ≤ keyNum z
      · simp [insertByIdx, h, List.mem_cons]
      · simp [insertByIdx, h, List.mem_cons, ih]
        tauto

theorem mem_sortByIdx {y : String} {l : List String} :
    y ∈ sortByIdx l ↔ y ∈ l := by
  induction l with
  | nil => simp [sortByIdx]
  | cons z zs ih => simp [sortByIdx, mem_insertByIdx, ih]

theorem mem_jsOwnKeys {own : List (String × String)} {k : String} :
    k ∈ jsOwnKeys own ↔ k ∈ own.map Prod.fst := by
  simp only [jsOwnKeys, List.mem_append, mem_sortByIdx, List.mem_filter]
  by_cases h : isArrayIndexKey k <;> simp [h]

theorem assocGet_filterMapKeys (ks : List String) (own : List (String × String))
    (k : String) :
    assocGet (ks.filterMap (fun k' => (assocGet own k').map (fun v => (k', v)))) k
      = if k ∈ ks then assocGet own k else none := by
  induction ks with
  | nil => simp [assocGet]
  | cons k' ks ih =>
      cases hv : assocGet own k' with
      | none =>
          by_cases hk : k = k'
          · subst hk
            simp [hv, ih]
          · simp [hv, ih, hk]
      | some v' =>
          by_cases hk : k' = k
          · subst hk
            simp [hv, assocGet]
          · have hk' : ¬ k = k' := fun hh => hk hh.symm
            simp [hv, assocGet, hk, ih, hk']

/-- Reloading the serialized document preserves every lookup: the
stringify/parse round trip loses no key/value pair. -/
theorem assocGet_serializeData (own : List (String × String)) (k : String) :
    assocGet (serializeData own) k = assocGet own k := by
  rw [serializeData, assocGet_filterMapKeys]
  by_cases h : k ∈ jsOwnKeys own
  · simp [h]
  · rw [if_neg h]
    rw [mem_jsOwnKeys] at h
    exact (assocGet_eq_none_of_not_mem h).symm

theorem mem_map_fst_assocSet {α : Type} (l : List (String × α)) (a k : String) (v : α) :
    a ∈ (assocSet l k v).map Prod.fst ↔ a ∈ l.map Prod.fst ∨ a = k := by
  induction l with
  | nil => simp [assocSet]
  | cons p rest ih =>
      obtain ⟨k', v'⟩ := p
      by_cases h : k' = k
      · subst h
        simp [assocSet]
        tauto
      · simp [assocSet, h, ih]
        tauto

theorem nodup_map_fst_assocSet {α : Type} {l : List (String × α)} (k : String) (v : α)
    (h : (l.map Prod.fst).Nodup) : ((assocSet l k v).map Prod.fst).Nodup := by
  induction l with
  | nil => simp [assocSet]
  | cons p rest ih =>
      obtain ⟨k', v'⟩ := p
      simp only [List.map_cons, List.nodup_cons] at h
      by_cases hk : k' = k
      · subst hk
        simp [assocSet, List.nodup_cons, h.1, h.2]
      · simp only [assocSet, if_neg hk, List.map_cons, List.nodup_cons]
        constructor
        · intro hmem
          rcases (mem_map_fst_assocSet rest k' k v).mp hmem with h1 | h1
          · exact h.1 h1
          · exact hk h1
        · exact ih h.2

theorem charToSixBit_sixBit_fin :
    ∀ n : Fin 64, charToSixBit (sixBitToChar n.val) = some n.val := by decide

theorem charToSixBit_sixBit {n : Nat} (h : n < 64) :
    charToSixBit (sixBitToChar n) = some n :=
  charToSixBit_sixBit_fin ⟨n, h⟩

theorem sixBitToChar_ne_pad_fin :
    ∀ n : Fin 64, ¬ sixBitToChar n.val = '=' := by decide

theorem sixBitToChar_ne_pad {n : Nat} (h : n < 64) :
    ¬ sixBitToChar n = '=' :=
  sixBitToChar_ne_pad_fin ⟨n, h⟩

/-- Decoding inverts encoding on every byte sequence. -/
theorem base64_roundtrip :
    ∀ (l : List Nat), (∀ b ∈ l, b < 256) →
      base64DecodeChars (base64EncodeBytes l) = some l := by
  intro l
  induction l using base64EncodeBytes.induct with
  | case1 => intro _; rfl
  | case2 a =>
      intro h
      have ha : a < 256 := h a (by simp)
      have h1 : a / 4 < 64 := by omega
      have h2 : a % 4 * 16 < 64 := by omega
      simp only [base64EncodeBytes, base64DecodeChars,
        charToSixBit_sixBit h1, charToSixBit_sixBit h2]
      simp
      omega
  | case3 a b =>
      intro h
      have ha : a < 256 := h a (by simp)
      have hb : b < 256 := h b (by simp)
      have h1 : a / 4 < 64 := by omega
      have h2 : a % 4 * 16 + b / 16 < 64 := by omega
      have h3 : b % 16 * 4 < 64 := by omega
      simp only [base64EncodeBytes, base64DecodeChars,
        charToSixBit_sixBit h1, charToSixBit_sixBit h2, charToSixBit_sixBit h3]
      rw [if_neg (fun hcon => sixBitToChar_ne_pad h3 hcon.1)]
      simp
      omega
  | case4 a b c rest ih =>
      intro h
      have ha : a < 256 := h a (by simp)
      have hb : b < 256 := h b (by simp)
      have hc : c < 256 := h c (by simp)
      have hr : ∀ x ∈ rest, x < 256 := fun x hx => h x (by simp [hx])
      have h1 : a / 4 < 64 := by omega
      have h2 : a % 4 * 16 + b / 16 < 64 := by omega
      have h3 : b % 16 * 4 + c / 64 < 64 := by omega
      have h4 : c % 64 < 64 := by omega
      simp only [base64EncodeBytes, base64DecodeChars,
        charToSixBit_sixBit h1, charToSixBit_sixBit h2]
      rw [if_neg (fun hcon => sixBitToChar_ne_pad h3 hcon.1)]
      simp only [charToSixBit_sixBit h3]
      rw [if_neg (fun hcon => sixBitToChar_ne_pad h4 hcon.1)]
      simp only [charToSixBit_sixBit h4]
      rw [ih hr]
      have e1 : a / 4 * 4 + (a % 4 * 16 + b / 16) / 16 = a := by omega
      have e2 : (a % 4 * 16 + b / 16) % 16 * 16 + (b % 16 * 4 + c / 64) / 4 = b := by
        omega
      have e3 : (b % 16 * 4 + c / 64) % 4 * 64 + c % 64 = c := by omega
      simp only [e1, e2, e3]
      rfl

set_option maxRecDepth 8192 in
theorem byteToHex_eq_fin :
    ∀ b : Fin 256, byteToHex b.val
      = [Nat.digitChar (b.val / 16), Nat.digitChar (b.val % 16)] := by decide

theorem byteToHex_eq {b : Nat} (h : b < 256) :
    byteToHex b = [Nat.digitChar (b / 16), Nat.digitChar (b % 16)] :=
  byteToHex_eq_fin ⟨b, h⟩

theorem digitChar_mem_hex_fin :
    ∀ k : Fin 16, Nat.digitChar k.val ∈ lowercaseHexDigits := by decide

theorem flatten_map_byteToHex (l : List Nat) (h : ∀ b ∈ l, b < 256) :
    (l.map byteToHex).flatten = hexRender l := by
  induction l with
  | nil => rfl
  | cons a rest ih =>
      have ha : a < 256 := h a (by simp)
      have hr := ih (fun x hx => h x (by simp [hx]))
      simp [hexRender, byteToHex_eq ha]
      simp [hexRender] at hr
      exact hr

theorem hexRender_length (l : List Nat) : (hexRender l).length = 2 * l.length := by
  induction l with
  | nil => rfl
  | cons a rest ih =>
      simp [hexRender] at ih ⊢
      omega

theorem hexRender_mem {l : List Nat} (h : ∀ b ∈ l, b < 256) {c : Char}
    (hc : c ∈ hexRender l) : c ∈ lowercaseHexDigits := by
  simp only [hexRender, List.mem_flatMap] at hc
  obtain ⟨b, hb, hcb⟩ := hc
  have hblt : b < 256 := h b hb
  simp only [List.mem_cons, List.mem_singleton] at hcb
  rcases hcb with rfl | hcb
  · exact digitChar_mem_hex_fin ⟨b / 16, by omega⟩
  · rcases hcb with rfl | hfalse
    · exact digitChar_mem_hex_fin ⟨b % 16, by omega⟩
    · simp at hfalse

/-- Once a rejection is recorded, later iterations keep it. -/
theorem addAllGo_second_frozen (fetchFn : RequestMeta → ResponseMeta)
    (reqs : List RequestInfo) :
    ∀ (d : CacheData) (m : String),
      (CacheImpl.addAllGo fetchFn d (some m) reqs).2 = some m := by
  induction reqs with
  | nil => intro d m; rfl
  | cons i rest ih =>
      intro d m
      by_cases h : respOk (fetchFn (toRequest i))
      · simp [CacheImpl.addAllGo, h, ih]
      · simp [CacheImpl.addAllGo, h, Option.orElse, ih]

theorem length_assocSet {α : Type} (l : List (String × α)) (k : String) (v : α) :
    (assocSet l k v).length
      = if k ∈ l.map Prod.fst then l.length else l.length + 1 := by
  induction l with
  | nil => simp [assocSet]
  | cons p rest ih =>
      obtain ⟨k', v'⟩ := p
      by_cases h : k' = k
      · subst h
        simp [assocSet]
      · have h2 : ¬ k = k' := fun hh => h hh.symm
        by_cases hm : k ∈ rest.map Prod.fst
        · simp [assocSet, h, ih, hm, h2]
        · simp [assocSet, h, ih, hm, h2]

/-- Updating the same key twice leaves exactly one entry under it (with the
second value) and grows the list by at most one. -/
theorem assocSet_twice_single {α : Type} (l : List (String × α)) (k : String)
    (v1 v2 : α) (h : (l.map Prod.fst).Nodup) :
    ((assocSet (assocSet l k v1) k v2).map Prod.fst).count k = 1 ∧
    (assocSet (assocSet l k v1) k v2).length
      = (if k ∈ l.map Prod.fst then l.length else l.length + 1) ∧
    assocGet (assocSet (assocSet l k v1) k v2) k = some v2 := by
  refine ⟨?_, ?_, assocGet_assocSet_self _ _ _⟩
  · have hn2 := nodup_map_fst_assocSet k v1 h
    have hn3 := nodup_map_fst_assocSet k v2 hn2
    exact List.count_eq_one_of_mem hn3
      ((mem_map_fst_assocSet _ _ _ _).mpr (Or.inr rfl))
  · rw [length_assocSet, if_pos ((mem_map_fst_assocSet _ _ _ _).mpr (Or.inr rfl)),
      length_assocSet]

/-! ## Lemmas for the resolver comparison -/

theorem ifTruthy_orElse (x alt : Option String) :
    (if truthy x then x else alt) = (nonEmptyVar x).orElse (fun _ => alt) := by
  cases x with
  | none => rfl
  | some s => by_cases hs : s = "" <;> simp [truthy, nonEmptyVar, hs, Option.orElse]

theorem ifTruthy_map (h : Option String) (suf : String) :
    (if truthy h then some (h.getD "" ++ suf) else none)
      = (nonEmptyVar h).map (fun s => s ++ suf) := by
  cases h with
  | none => rfl
  | some s => by_cases hs : s = "" <;> simp [truthy, nonEmptyVar, hs]

theorem ifTruthy_none (v : Option String) :
    (if truthy v then v else none) = nonEmptyVar v := by
  cases v with
  | none => rfl
  | some s => by_cases hs : s = "" <;> simp [truthy, nonEmptyVar, hs]

/-! ## Lemmas for `addAll` -/

theorem addAllGo_all_ok (fetchFn : RequestMeta → ResponseMeta) :
    ∀ (reqs : List RequestInfo) (d : CacheData),
      CacheImpl.firstFailedRequest fetchFn reqs = none →
      CacheImpl.addAllGo fetchFn d none reqs
        = (reqs.foldl (fun acc i =>
             CacheImpl.put acc (.request (toRequest i)) (fetchFn (toRequest i))) d,
           none) := by
  intro reqs
  induction reqs with
  | nil => intro d _; rfl
  | cons i rest ih =>
      intro d hnone
      simp only [CacheImpl.firstFailedRequest, List.map_cons, List.find?_cons] at hnone
      by_cases h : respOk (fetchFn (toRequest i))
      · simp only [h, Bool.not_true] at hnone
        simp only [CacheImpl.addAllGo, h, if_pos, List.foldl_cons]
        exact ih _ hnone
      · simp only [Bool.not_eq_true] at h
        simp [h] at hnone

theorem addAllGo_fail (fetchFn : RequestMeta → ResponseMeta) :
    ∀ (reqs : List RequestInfo) (r : RequestMeta) (d : CacheData),
      CacheImpl.firstFailedRequest fetchFn reqs = some r →
      (CacheImpl.addAllGo fetchFn d none reqs).2
        = some (CacheImpl.addAllFailMsg r (fetchFn r)) := by
  intro reqs
  induction reqs with
  | nil => intro r d h; simp [CacheImpl.firstFailedRequest] at h
  | cons i rest ih =>
      intro r d hsome
      simp only [CacheImpl.firstFailedRequest, List.map_cons, List.find?_cons] at hsome
      by_cases h : respOk (fetchFn (toRequest i))
      · simp only [h, Bool.not_true] at hsome
        simp only [CacheImpl.addAllGo, h, if_pos]
        exact ih r _ hsome
      · simp only [Bool.not_eq_true] at h
        simp only [h, Bool.not_false, Option.some.injEq] at hsome
        subst hsome
        simp only [CacheImpl.addAllGo, h, Bool.false_eq_true, if_neg, Option.orElse]
        exact addAllGo_second_frozen fetchFn rest _ _

/-! ## Claim theorems -/

/-- C1 (counterexample): the claim says every store backend's load step
warns and falls back to an empty document on a corrupt file rather than
raising; but the entry cache's lazy load on a concrete corrupt file raises
the load error instead of returning the empty cache. -/
theorem claimC1_cache_load_raises :
    (CacheImpl.load "cache-1" (CacheFileState.corrupt "SyntaxError")).isOk = false ∧
    CacheImpl.load "cache-1" (CacheFileState.corrupt "SyntaxError")
      = Except.error "[Cache Polyfill] Error loading cache \"cache-1\":SyntaxError" := by
  constructor
  · rfl
  · rfl

/-- C1 (amended): on a backing file that fails to parse, the key-value
store's load step warns and falls back to an empty usable in-memory
document (every non-prototype key then reads as null), while the entry
cache's lazy load instead raises an error naming the cache, which
propagates to the calling operation. -/
theorem claimC1_corrupt_load (raw name errText k : String) :
    (LocalStorage.setupLoad (FileState.corrupt raw)).warned = true ∧
    (LocalStorage.setupLoad (FileState.corrupt raw)).state.storageData = [] ∧
    (k ∉ objectPrototypeKeys →
      LocalStorage.getItem (LocalStorage.setupLoad (FileState.corrupt raw)).state k
        = JSValue.jsNull) ∧
    CacheImpl.load name (CacheFileState.corrupt errText)
      = Except.error ("[Cache Polyfill] Error loading cache \"" ++ name ++ "\":"
          ++ errText) := by
  refine ⟨rfl, rfl, ?_, rfl⟩
  intro hk
  simp [LocalStorage.setupLoad, LocalStorage.getItem, jsIndexRead, assocGet, hk]

/-- C1 (witness for the amended theorem at a concrete key). -/
theorem claimC1_witness :
    ("someKey" ∉ objectPrototypeKeys) ∧
    LocalStorage.getItem
        (LocalStorage.setupLoad (FileState.corrupt "not json")).state "someKey"
      = JSValue.jsNull :=
  ⟨by decide, (claimC1_corrupt_load "not json" "c" "e" "someKey").2.2.1 (by decide)⟩

/-- C2 (counterexample): the claim says the broken file's on-disk contents
are left unchanged by the load step; but after loading a concrete corrupt
file the file no longer holds its old contents — the load wrote the empty
document over it. -/
theorem claimC2_file_not_preserved :
    (LocalStorage.setupLoad (FileState.corrupt "not json")).state.file
        ≠ FileState.corrupt "not json" ∧
    (LocalStorage.setupLoad (FileState.corrupt "not json")).state.file
        = FileState.doc [] := by
  constructor
  · decide
  · rfl

/-- C2 (amended): when the key-value store's backing file is unparsable,
the load step itself already overwrites it with the empty JSON document
(the same initialization write used when the file is absent); each
subsequent mutating write then overwrites it again with the serialized
current document. -/
theorem claimC2_load_overwrites (raw k v : String) (st : LocalStorageState) :
    (LocalStorage.setupLoad (FileState.corrupt raw)).state.file = FileState.doc [] ∧
    (LocalStorage.setupLoad FileState.absent).state.file = FileState.doc [] ∧
    (LocalStorage.setItem st k v).file
      = FileState.doc (serializeData (jsIndexWrite st.storageData k v)) ∧
    (LocalStorage.removeItem st k).file
      = FileState.doc (serializeData (assocRemove st.storageData k)) ∧
    (LocalStorage.clear st).file = FileState.doc [] := by
  exact ⟨rfl, rfl, rfl, rfl, rfl⟩

/-- C3 (counterexample): the round trip fails for the string key
`__proto__`: `setItem` stores nothing (the inherited setter swallows the
write) and `getItem` returns the inherited prototype member, not the
value that was set. -/
theorem claimC3_proto_key :
    LocalStorage.getItem
        (LocalStorage.setItem emptyLocalStorage "__proto__" "value") "__proto__"
      ≠ JSValue.str "value" := by
  decide

/-- C3 (amended): for every state and every pair `(k, v)` with
`k ≠ "__proto__"`, `setItem k v` followed by `getItem k` returns `v`, both
on the same instance and on a fresh instance that reloads the backing file
the `setItem` wrote. -/
theorem claimC3_roundtrip (st : LocalStorageState) (k v : String)
    (hk : k ≠ "__proto__") :
    LocalStorage.getItem (LocalStorage.setItem st k v) k = JSValue.str v ∧
    LocalStorage.getItem
        (LocalStorage.setupLoad (LocalStorage.setItem st k v).file).state k
      = JSValue.str v := by
  constructor
  · simp only [LocalStorage.setItem, LocalStorage.getItem, jsIndexRead,
      jsIndexWrite, if_neg hk, assocGet_assocSet_self]
  · simp only [LocalStorage.setItem, LocalStorage.saveData, LocalStorage.setupLoad,
      LocalStorage.getItem, jsIndexRead, jsIndexWrite, if_neg hk,
      assocGet_serializeData, assocGet_assocSet_self]

/-- C3 (witness at a concrete pair). -/
theorem claimC3_witness :
    ("user" ≠ "__proto__") ∧
    LocalStorage.getItem
        (LocalStorage.setItem emptyLocalStorage "user" "Jane") "user"
      = JSValue.str "Jane" ∧
    LocalStorage.getItem
        (LocalStorage.setupLoad
          (LocalStorage.setItem emptyLocalStorage "user" "Jane").file).state "user"
      = JSValue.str "Jane" := by
  refine ⟨by decide, ?_, ?_⟩
  · exact (claimC3_roundtrip emptyLocalStorage "user" "Jane" (by decide)).1
  · exact (claimC3_roundtrip emptyLocalStorage "user" "Jane" (by decide)).2

/-- C4: after `put(request, response)`, `match` on a request with the same
URL returns a response with exactly the stored status, statusText, headers
and body bytes (the base64 snapshot decodes back to the original bytes),
and `match` on a URL never put returns no result. -/
theorem claimC4_put_match (d : CacheData) (req : RequestMeta)
    (resp : ResponseMeta) (u : String)
    (hbytes : ∀ b ∈ resp.body, b < 256) (hu : u ≠ req.url) :
    CacheImpl.matchReq (CacheImpl.put d (.request req) resp) (.request req)
      = Except.ok (some resp) ∧
    CacheImpl.matchReq (CacheImpl.put emptyCacheData (.request req) resp)
        (.url u)
      = Except.ok none := by
  constructor
  · simp only [CacheImpl.put, CacheImpl.matchReq, toRequest, getRequestKey,
      assocGet_assocSet_self, base64ToArrayBuffer, arrayBufferToBase64]
    rw [base64_roundtrip resp.body hbytes]
  · simp only [CacheImpl.put, CacheImpl.matchReq, toRequest, getRequestKey,
      emptyCacheData]
    rw [assocGet_assocSet_ne _ _ _ _ hu]
    rfl

/-- C4 (witness at the spec's concrete scenario). -/
theorem claimC4_witness :
    (∀ b ∈ [104, 101, 108, 108, 111], b < 256) ∧
    ("https://x/b" ≠ "https://x/a") ∧
    CacheImpl.matchReq
        (CacheImpl.put emptyCacheData
          (.request ⟨"https://x/a", "GET", []⟩)
          ⟨200, "", [("content-type", "text/plain")], [104, 101, 108, 108, 111]⟩)
        (.request ⟨"https://x/a", "GET", []⟩)
      = Except.ok (some ⟨200, "", [("content-type", "text/plain")],
          [104, 101, 108, 108, 111]⟩) ∧
    CacheImpl.matchReq
        (CacheImpl.put emptyCacheData
          (.request ⟨"https://x/a", "GET", []⟩)
          ⟨200, "", [("content-type", "text/plain")], [104, 101, 108, 108, 111]⟩)
        (.url "https://x/b")
      = Except.ok none := by
  refine ⟨by decide, by decide, ?_, ?_⟩
  · exact (claimC4_put_match emptyCacheData ⟨"https://x/a", "GET", []⟩
      ⟨200, "", [("content-type", "text/plain")], [104, 101, 108, 108, 111]⟩
      "https://x/b" (by decide) (by decide)).1
  · exact (claimC4_put_match emptyCacheData ⟨"https://x/a", "GET", []⟩
      ⟨200, "", [("content-type", "text/plain")], [104, 101, 108, 108, 111]⟩
      "https://x/b" (by decide) (by decide)).2

/-- C5 (counterexample): the claim (following the spec) says every
Unix-like OS prefers the explicit cache-home variable; on Darwin with
`XDG_CACHE_HOME=/xdg` and `HOME=/home/user` the code ignores the variable
and derives from `HOME`, so it disagrees with the claim's resolver. -/
theorem claimC5_darwin_xdg :
    cacheDir OS.darwin envXdgAndHome ≠ cacheDirSpec OS.darwin envXdgAndHome ∧
    cacheDir OS.darwin envXdgAndHome = some "/home/user/Library/Caches" ∧
    cacheDirSpec OS.darwin envXdgAndHome = some "/xdg" := by
  refine ⟨by decide, by decide, by decide⟩

/-- C5 (amended): the resolver equals, on every OS and environment, the
contract with Darwin restricted to `HOME`: Linux prefers the truthy
`XDG_CACHE_HOME` then derives `HOME + "/.cache"`; Darwin derives
`HOME + "/Library/Caches"` only; Windows prefers `LOCALAPPDATA` then
`APPDATA`; any other OS or no applicable truthy variable yields no result.
The embedding is a pure function of its inputs: no side effects and no
directory creation. -/
theorem claimC5_cacheDir_amended (os : OS) (env : String → Option String) :
    cacheDir os env = cacheDirAmended os env := by
  cases os with
  | linux =>
      simp only [cacheDir, cacheDirAmended]
      rw [ifTruthy_map (env "HOME") "/.cache"]
      rw [ifTruthy_orElse]
  | darwin =>
      simp only [cacheDir, cacheDirAmended]
      rw [ifTruthy_map (env "HOME") "/Library/Caches"]
  | windows =>
      simp only [cacheDir, cacheDirAmended]
      rw [ifTruthy_none, ifTruthy_orElse]
  | other name => rfl

/-- C6: the entry cache keys records by URL only — two puts whose requests
share a URL but differ in method or headers leave exactly one record under
that URL, the later put's record, which still stores the later request's
method and headers. -/
theorem claimC6_url_key_overwrite (d : CacheData) (r1 r2 : RequestMeta)
    (resp1 resp2 : ResponseMeta) (hurl : r1.url = r2.url)
    (hnodup : (d.entries.map Prod.fst).Nodup) :
    (((CacheImpl.put (CacheImpl.put d (.request r1) resp1)
        (.request r2) resp2).entries.map Prod.fst).count r2.url = 1) ∧
    ((CacheImpl.put (CacheImpl.put d (.request r1) resp1)
        (.request r2) resp2).entries.length
      = if r2.url ∈ d.entries.map Prod.fst then d.entries.length
        else d.entries.length + 1) ∧
    assocGet (CacheImpl.put (CacheImpl.put d (.request r1) resp1)
        (.request r2) resp2).entries r2.url
      = some ⟨⟨r2.url, r2.method, r2.headers⟩,
             ⟨resp2.status, resp2.statusText, resp2.headers,
              arrayBufferToBase64 resp2.body⟩⟩ := by
  simp only [CacheImpl.put, toRequest, getRequestKey]
  rw [hurl]
  exact assocSet_twice_single d.entries r2.url _ _ hnodup

/-- C6 (witness: same URL, different method and headers). -/
theorem claimC6_witness :
    ((⟨"https://x/a", "GET", []⟩ : RequestMeta).url
        = (⟨"https://x/a", "POST", [("x-h", "1")]⟩ : RequestMeta).url) ∧
    (((emptyCacheData.entries.map Prod.fst)).Nodup) ∧
    (((CacheImpl.put (CacheImpl.put emptyCacheData
        (.request ⟨"https://x/a", "GET", []⟩) ⟨200, "", [], []⟩)
        (.request ⟨"https://x/a", "POST", [("x-h", "1")]⟩)
        ⟨201, "Created", [], []⟩).entries.map Prod.fst).count "https://x/a" = 1) ∧
    ((CacheImpl.put (CacheImpl.put emptyCacheData
        (.request ⟨"https://x/a", "GET", []⟩) ⟨200, "", [], []⟩)
        (.request ⟨"https://x/a", "POST", [("x-h", "1")]⟩)
        ⟨201, "Created", [], []⟩).entries.length = 1) ∧
    assocGet (CacheImpl.put (CacheImpl.put emptyCacheData
        (.request ⟨"https://x/a", "GET", []⟩) ⟨200, "", [], []⟩)
        (.request ⟨"https://x/a", "POST", [("x-h", "1")]⟩)
        ⟨201, "Created", [], []⟩).entries "https://x/a"
      = some ⟨⟨"https://x/a", "POST", [("x-h", "1")]⟩,
             ⟨201, "Created", [], arrayBufferToBase64 []⟩⟩ := by
  refine ⟨by decide, by decide, ?_, ?_, ?_⟩
  · exact (claimC6_url_key_overwrite emptyCacheData
      ⟨"https://x/a", "GET", []⟩ ⟨"https://x/a", "POST", [("x-h", "1")]⟩
      ⟨200, "", [], []⟩ ⟨201, "Created", [], []⟩ (by decide) (by decide)).1
  · exact (claimC6_url_key_overwrite emptyCacheData
      ⟨"https://x/a", "GET", []⟩ ⟨"https://x/a", "POST", [("x-h", "1")]⟩
      ⟨200, "", [], []⟩ ⟨201, "Created", [], []⟩ (by decide) (by decide)).2.1
  · exact (claimC6_url_key_overwrite emptyCacheData
      ⟨"https://x/a", "GET", []⟩ ⟨"https://x/a", "POST", [("x-h", "1")]⟩
      ⟨200, "", [], []⟩ ⟨201, "Created", [], []⟩ (by decide) (by decide)).2.2

/-- C7 (counterexample): the claim says each request is fetched via the
unpatched network-fetch capability; but the code calls the bare global
`fetch`, so with a fetch patch installed it uses the patched binding: on a
concrete one-request batch whose native network response is a 404, the
unpatched capability the claim prescribes would abort the batch with the
404 error, while the code's run resolves successfully and stores the
patch's response. -/
theorem claimC7_patched_fetch :
    CacheImpl.addAllAmbient patchedGlobals emptyCacheData
        [RequestInfo.url "file:///data.txt"]
      ≠ CacheImpl.addAll patchedGlobals.netFetch emptyCacheData
        [RequestInfo.url "file:///data.txt"] ∧
    CacheImpl.addAll patchedGlobals.netFetch emptyCacheData
        [RequestInfo.url "file:///data.txt"]
      = Except.error "Failed to fetch \"file:///data.txt\": 404 Not Found" ∧
    CacheImpl.addAllAmbient patchedGlobals emptyCacheData
        [RequestInfo.url "file:///data.txt"]
      = Except.ok (CacheImpl.put emptyCacheData
          (.request ⟨"file:///data.txt", "GET", []⟩) ⟨200, "OK", [], [104, 105]⟩) := by
  have h2 : CacheImpl.addAll patchedGlobals.netFetch emptyCacheData
      [RequestInfo.url "file:///data.txt"]
      = Except.error "Failed to fetch \"file:///data.txt\": 404 Not Found" := rfl
  have h3 : CacheImpl.addAllAmbient patchedGlobals emptyCacheData
      [RequestInfo.url "file:///data.txt"]
      = Except.ok (CacheImpl.put emptyCacheData
          (.request ⟨"file:///data.txt", "GET", []⟩) ⟨200, "OK", [], [104, 105]⟩) := rfl
  refine ⟨?_, h2, h3⟩
  rw [h2, h3]
  intro hcon
  exact Except.noConfusion hcon

/-- C7 (amended): during `add`/`addAll` each request is fetched via the
current global fetch binding (the installed patch's fetch when one is
present — the code captures no unpatched capability), and under every
completion order of the concurrently launched closures: when every fetched
response is ok, the batch resolves with every response put into the cache;
when some fetched response is non-ok, the batch rejects with an error
naming the URL and status of one of the batch's failing requests (which
failing request is reported depends on the completion order); `add`
delegates to `addAll` on the singleton batch. -/
theorem claimC7_addAll (g : FetchGlobals) (d : CacheData)
    (reqs sched : List RequestInfo) (hperm : sched.Perm reqs) :
    (CacheImpl.addAllAmbient g d sched = CacheImpl.addAll (currentFetch g) d sched) ∧
    (CacheImpl.firstFailedRequest (currentFetch g) sched = none →
       CacheImpl.addAllAmbient g d sched
         = Except.ok (sched.foldl (fun acc i =>
             CacheImpl.put acc (.request (toRequest i))
               (currentFetch g (toRequest i))) d)) ∧
    ((∃ i ∈ reqs, respOk (currentFetch g (toRequest i)) = false) →
       ∃ r : RequestMeta, r ∈ reqs.map toRequest ∧
         respOk (currentFetch g r) = false ∧
         CacheImpl.addAllAmbient g d sched
           = Except.error (CacheImpl.addAllFailMsg r (currentFetch g r))) ∧
    (∀ i : RequestInfo,
       CacheImpl.add (currentFetch g) d i = CacheImpl.addAll (currentFetch g) d [i]) := by
  refine ⟨rfl, ?_, ?_, fun i => rfl⟩
  · intro hnone
    show CacheImpl.addAll (currentFetch g) d sched = _
    unfold CacheImpl.addAll
    rw [addAllGo_all_ok (currentFetch g) sched d hnone]
  · intro hbad
    obtain ⟨i, hi, hbadi⟩ := hbad
    cases hf : CacheImpl.firstFailedRequest (currentFetch g) sched with
    | none =>
        exfalso
        rw [CacheImpl.firstFailedRequest, List.find?_eq_none] at hf
        have hmem : toRequest i ∈ sched.map toRequest :=
          List.mem_map_of_mem toRequest (hperm.mem_iff.mpr hi)
        have := hf (toRequest i) hmem
        simp [hbadi] at this
    | some r =>
        have hp : respOk (currentFetch g r) = false := by
          have := List.find?_some hf
          simpa using this
        have hrs : r ∈ sched.map toRequest := List.mem_of_find?_eq_some hf
        have hrr : r ∈ reqs.map toRequest := ((hperm.map toRequest).mem_iff).mp hrs
        refine ⟨r, hrr, hp, ?_⟩
        have hsnd := addAllGo_fail (currentFetch g) sched r d hf
        show CacheImpl.addAll (currentFetch g) d sched = _
        unfold CacheImpl.addAll
        rcases hgo : CacheImpl.addAllGo (currentFetch g) d none sched with ⟨d', m'⟩
        rw [hgo] at hsnd
        simp only at hsnd
        subst hsnd
        rfl

/-- C7 (witness: a two-request batch, run in the completion order opposite
to request order, whose bad request fetches a 404). -/
theorem claimC7_witness :
    ([RequestInfo.url "https://x/bad", RequestInfo.url "https://x/good"].Perm
        [RequestInfo.url "https://x/good", RequestInfo.url "https://x/bad"]) ∧
    (∃ i ∈ [RequestInfo.url "https://x/good", RequestInfo.url "https://x/bad"],
        respOk (currentFetch unpatchedGlobals (toRequest i)) = false) ∧
    (∃ r : RequestMeta,
        r ∈ [RequestInfo.url "https://x/good",
             RequestInfo.url "https://x/bad"].map toRequest ∧
        respOk (currentFetch unpatchedGlobals r) = false ∧
        CacheImpl.addAllAmbient unpatchedGlobals emptyCacheData
            [RequestInfo.url "https://x/bad", RequestInfo.url "https://x/good"]
          = Except.error (CacheImpl.addAllFailMsg r (currentFetch unpatchedGlobals r))) := by
  refine ⟨List.Perm.swap _ _ _, ?_, ?_⟩
  · exact ⟨RequestInfo.url "https://x/bad", by decide, by decide⟩
  · exact (claimC7_addAll unpatchedGlobals emptyCacheData
      [RequestInfo.url "https://x/good", RequestInfo.url "https://x/bad"]
      [RequestInfo.url "https://x/bad", RequestInfo.url "https://x/good"]
      (List.Perm.swap _ _ _)).2.2.1
      ⟨RequestInfo.url "https://x/bad", by decide, by decide⟩

/-- C8: `createStorageId` is deterministic, and for every 256-bit digest
primitive (32 output bytes) its result is that digest of the UTF-8 bytes of
the input, rendered as lowercase hexadecimal and truncated to exactly 16
hex characters. -/
theorem claimC8_namespaceId (digest : List Nat → List Nat) (s : String)
    (hlen : (digest (utf8Encode s)).length = 32)
    (hbytes : ∀ b ∈ digest (utf8Encode s), b < 256) :
    createStorageId digest s = createStorageId digest s ∧
    createStorageId digest s
      = String.mk ((hexRender (digest (utf8Encode s))).take 16) ∧
    (createStorageId digest s).length = 16 ∧
    ∀ c ∈ (createStorageId digest s).data, c ∈ lowercaseHexDigits := by
  have hdata : (createStorageId digest s).data
      = (hexRender (digest (utf8Encode s))).take 16 := by
    show (((digest (utf8Encode s)).map byteToHex).flatten.take 16)
        = (hexRender (digest (utf8Encode s))).take 16
    rw [flatten_map_byteToHex _ hbytes]
  refine ⟨rfl, ?_, ?_, ?_⟩
  · show String.mk (((digest (utf8Encode s)).map byteToHex).flatten.take 16)
        = String.mk ((hexRender (digest (utf8Encode s))).take 16)
    exact congrArg String.mk (by rw [flatten_map_byteToHex _ hbytes])
  · show (createStorageId digest s).data.length = 16
    rw [hdata, List.length_take, hexRender_length, hlen]
    omega
  · intro c hc
    rw [hdata] at hc
    exact hexRender_mem hbytes (List.take_subset _ _ hc)

/-- C8 (witness with a concrete 32-byte digest function). -/
theorem claimC8_witness :
    ((fun _ : List Nat => List.range 32) (utf8Encode "app")).length = 32 ∧
    (∀ b ∈ (fun _ : List Nat => List.range 32) (utf8Encode "app"), b < 256) ∧
    (createStorageId (fun _ : List Nat => List.range 32) "app").length = 16 := by
  refine ⟨by decide, by decide, ?_⟩
  exact (claimC8_namespaceId (fun _ : List Nat => List.range 32) "app"
    (by decide) (by decide)).2.2.1

/-- C9: outside the standalone context (the respective guard reports
false), both setup entry points return successfully with the world
unchanged: no global installed, no directory ensured, no file touched. -/
theorem claimC9_nonstandalone_noop (storageId : String) (w v : World)
    (hL : w.isStandaloneExe = false) (hC : v.standaloneBuildFlag = false) :
    setupLocalStorage storageId w = Except.ok w ∧
    setupCachesPolyfill storageId v = Except.ok v := by
  constructor
  · simp [setupLocalStorage, hL]
  · simp [setupCachesPolyfill, hC]

/-- C9 (witness at a concrete non-standalone world). -/
theorem claimC9_witness :
    nonStandaloneWorld.isStandaloneExe = false ∧
    nonStandaloneWorld.standaloneBuildFlag = false ∧
    setupLocalStorage "id" nonStandaloneWorld = Except.ok nonStandaloneWorld ∧
    setupCachesPolyfill "id" nonStandaloneWorld = Except.ok nonStandaloneWorld := by
  refine ⟨rfl, rfl, ?_, ?_⟩
  · exact (claimC9_nonstandalone_noop "id" nonStandaloneWorld nonStandaloneWorld
      rfl rfl).1
  · exact (claimC9_nonstandalone_noop "id" nonStandaloneWorld nonStandaloneWorld
      rfl rfl).2

/-- C10: `getItem` looks keys up on a prototype-bearing plain object: on an
empty store the never-stored key `toString` reads back the inherited
`Object.prototype` member instead of null (while owning no such entry), and
`setItem "__proto__"` creates no own enumerable entry, so `length` stays 0
and key enumeration does not reflect it. -/
theorem claimC10_prototype_lookup :
    LocalStorage.getItem emptyLocalStorage "toString"
        = JSValue.protoMember "toString" ∧
    LocalStorage.getItem emptyLocalStorage "toString" ≠ JSValue.jsNull ∧
    assocGet emptyLocalStorage.storageData "toString" = none ∧
    (LocalStorage.setItem emptyLocalStorage "__proto__" "x").storageData = [] ∧
    LocalStorage.length (LocalStorage.setItem emptyLocalStorage "__proto__" "x") = 0 ∧
    LocalStorage.keyAt (LocalStorage.setItem emptyLocalStorage "__proto__" "x") 0
        = JSValue.jsNull := by
  refine ⟨by decide, by decide, rfl, by decide, by decide, by decide⟩

end DenoCompileExtra
